import Mathlib

/-!
Verification of the event-loop-monitor metrics core against its
natural-language specification.  The definitions below are a shallow
embedding of `src/core/MetricsCollector.js`, `src/core/EventLoopMonitor.js`
(`getHealth`) and `alerts/AlertManager.js` (threshold checks).  JavaScript
numbers are modelled as rationals; JavaScript field presence/typeof checks
are modelled by an explicit `Field` type.
-/

namespace ELM

/-- A JavaScript object field as seen by `typeof`-style validation:
absent (`undefined`), present but not a number, or a number. -/
inductive Field where
  | absent
  | nonNum
  | num (q : ℚ)
deriving DecidableEq, Repr

/-- `typeof x === "number"`. -/
def Field.isNum : Field → Bool
  | .num _ => true
  | _ => false

/-- JavaScript truthiness for a numeric field: `x` is truthy and a number
(`!x || typeof x !== "number"` is the negation of this). -/
def Field.isTruthyNum : Field → Bool
  | .num q => q != 0
  | _ => false

/-- The `lag` sub-object of a sample (fields checked by `_validateSample`). -/
structure RawLag where
  lmin : Field
  lmax : Field
  mean : Field
  p50 : Field
  p95 : Field
  p99 : Field
deriving DecidableEq, Repr

/-- The `elu` sub-object of a sample. -/
structure RawElu where
  utilization : Field
  active : Field
  idle : Field
deriving DecidableEq, Repr

/-- A sample object handed to `addSample`: a `timestamp` field and optional
`lag` / `elu` sub-objects. -/
structure RawSample where
  timestamp : Field
  lag : Option RawLag
  elu : Option RawElu
deriving DecidableEq, Repr

/-- Numeric timestamp of a sample (0 for non-numeric timestamps; only used
on samples whose timestamp is numeric). -/
def RawSample.ts (s : RawSample) : ℚ :=
  match s.timestamp with
  | .num q => q
  | _ => 0

/-- `MetricsCollector._validateSample`: the timestamp must be a truthy
number; if a `lag` object is present its six required subfields must be
numbers; if an `elu` object is present its three subfields must be
numbers.  Returns the `valid` flag of the validation result. -/
def validateSample (s : RawSample) : Bool :=
  s.timestamp.isTruthyNum &&
  (match s.lag with
   | none => true
   | some l =>
     l.lmin.isNum && l.lmax.isNum && l.mean.isNum &&
     l.p50.isNum && l.p95.isNum && l.p99.isNum) &&
  (match s.elu with
   | none => true
   | some e => e.utilization.isNum && e.active.isNum && e.idle.isNum)

/-- State of a `MetricsCollector`: the circular buffer (`samples`, a list of
`historySize` slots), write index, live count, lifetime counters.  Cache,
event-emitter and performance bookkeeping are not modelled. -/
structure Collector where
  historySize : ℕ
  enableValidation : Bool
  samples : List (Option RawSample)
  currentIndex : ℕ
  sampleCount : ℕ
  totalSamples : ℕ
  validationErrors : ℕ
  droppedSamples : ℕ
deriving Repr

/-- A freshly constructed collector with capacity `historySize` and
validation enabled (the constructor's default). -/
def mkCollector (historySize : ℕ) : Collector :=
  { historySize := historySize
    enableValidation := true
    samples := List.replicate historySize none
    currentIndex := 0
    sampleCount := 0
    totalSamples := 0
    validationErrors := 0
    droppedSamples := 0 }

/-- `MetricsCollector.addSample`: returns early with `false` when the
capacity is 0; drops the sample (incrementing `validationErrors`) when
validation is enabled and fails; otherwise writes the sample at
`currentIndex`, advances the index modulo the capacity, and bumps the
counters. -/
def addSample (c : Collector) (s : RawSample) : Bool × Collector :=
  if c.historySize = 0 then (false, c)
  else if c.enableValidation = true ∧ validateSample s = false then
    (false, { c with validationErrors := c.validationErrors + 1 })
  else
    (true,
     { c with
       samples := c.samples.set c.currentIndex (some s)
       currentIndex := (c.currentIndex + 1) % c.historySize
       sampleCount :=
         if c.sampleCount < c.historySize then c.sampleCount + 1
         else c.sampleCount
       totalSamples := c.totalSamples + 1 })

/-- Insert a list of samples in order (repeated `addSample`, keeping only
the state). -/
def insertAll (c : Collector) (l : List RawSample) : Collector :=
  l.foldl (fun c s => (addSample c s).2) c

/-- `sortOrder` of a history query: the code reverses the result exactly
when the option equals `"desc"`. -/
inductive SortOrder where
  | asc
  | desc
deriving DecidableEq, Repr

/-- A `getHistory` query object.  `now` stands for `Date.now()` at query
time (the claim evaluates the duration filter at a fixed now).  A `some 0`
numeric option is falsy in JavaScript, which the definition honours. -/
structure HistoryQuery where
  count : Option ℕ := none
  duration : Option ℚ := none
  startTime : Option ℚ := none
  endTime : Option ℚ := none
  filterP : Option (RawSample → Bool) := none
  sortOrder : SortOrder := .asc
  now : ℚ := 0

/-- JavaScript truthiness of an optional numeric query field. -/
def optTruthy (o : Option ℚ) : Bool :=
  match o with
  | none => false
  | some q => q != 0

/-- The per-sample filter chain in the `getHistory` loop body: `continue`
(`none`) when the sample fails the `startTime`, `endTime`, `duration`, or
`filter` checks, keep it (`some`) otherwise. -/
def historyKeep (q : HistoryQuery) (s : RawSample) : Option RawSample :=
  if optTruthy q.startTime && decide (s.ts < q.startTime.getD 0) then none
  else if optTruthy q.endTime && decide (q.endTime.getD 0 < s.ts) then none
  else if optTruthy q.duration &&
      decide (s.ts < q.now - q.duration.getD 0) then none
  else
    match q.filterP with
    | some f => if f s then some s else none
    | none => some s

/-- The requested count computed at the top of `getHistory`: `count` (with
JavaScript falsiness) defaulted to `sampleCount`, overwritten by
`sampleCount` when a truthy `duration` is given, then capped at
`sampleCount` (here `sc`). -/
def requestedCountOf (q : HistoryQuery) (sc : ℕ) : ℕ :=
  min
    (if optTruthy q.duration then sc
     else
       match q.count with
       | some n => if n = 0 then sc else n
       | none => sc)
    sc

/-- `MetricsCollector.getHistory`: computes the requested count (the
`duration` branch overwrites it with `sampleCount`), the circular start
offset, then walks the buffer skipping empty slots and samples rejected by
the `startTime`/`endTime`/`duration`/`filter` checks, finally reversing
for `sortOrder === "desc"`. -/
def getHistory (c : Collector) (q : HistoryQuery) : List RawSample :=
  if c.sampleCount = 0 then []
  else
    let requestedCount : ℕ := requestedCountOf q c.sampleCount
    let startIndex : ℕ :=
      if c.sampleCount < c.historySize then c.sampleCount - requestedCount
      else (c.currentIndex + c.historySize - requestedCount) % c.historySize
    let result : List RawSample :=
      (List.range requestedCount).filterMap (fun i =>
        let index := (startIndex + i) % c.historySize
        match c.samples.getD index none with
        | none => none
        | some s => historyKeep q s)
    match q.sortOrder with
    | .desc => result.reverse
    | .asc => result

/-- `getHistory()` with no arguments. -/
def getHistoryAll (c : Collector) : List RawSample :=
  getHistory c {}

/-- `getHistory(count)` with a plain numeric argument (`{count}` query). -/
def getHistoryN (c : Collector) (n : Option ℕ) : List RawSample :=
  getHistory c { count := n }

/-- The fields of `MetricsCollector.getStats()` relevant to the claims. -/
structure Stats where
  historySize : ℕ
  sampleCount : ℕ
  totalSamples : ℕ
  currentIndex : ℕ
  droppedSamples : ℕ
  validationErrors : ℕ
deriving DecidableEq, Repr

/-- `MetricsCollector.getStats` (claim-relevant projection). -/
def getStats (c : Collector) : Stats :=
  { historySize := c.historySize
    sampleCount := c.sampleCount
    totalSamples := c.totalSamples
    currentIndex := c.currentIndex
    droppedSamples := c.droppedSamples
    validationErrors := c.validationErrors }

/-- `MetricsCollector.reset(keepStats)`: clears the slots, the write index
and the live count; unless `keepStats`, also zeroes the lifetime total and
the error counters. -/
def reset (c : Collector) (keepStats : Bool) : Collector :=
  { c with
    samples := List.replicate c.historySize none
    currentIndex := 0
    sampleCount := 0
    totalSamples := if keepStats then c.totalSamples else 0
    validationErrors := if keepStats then c.validationErrors else 0
    droppedSamples := if keepStats then c.droppedSamples else 0 }

/-- `MetricsCollector._percentile` over an (assumed sorted) value array:
empty array yields 0, singleton its element, otherwise linear
interpolation at fractional index `(p/100)*(n-1)` between the bracketing
entries. -/
def percentile (sortedValues : List ℚ) (p : ℚ) : ℚ :=
  match sortedValues with
  | [] => 0
  | [x] => x
  | _ =>
    let n := sortedValues.length
    let index : ℚ := (p / 100) * ((n : ℚ) - 1)
    let lower : ℤ := ⌊index⌋
    let upper : ℤ := ⌈index⌉
    let weight : ℚ := index - (lower : ℚ)
    if lower = upper then sortedValues.getD lower.toNat 0
    else
      sortedValues.getD lower.toNat 0 * (1 - weight) +
        sortedValues.getD upper.toNat 0 * weight

/-- The per-call result of `importJSON`. -/
structure ImportResult where
  imported : ℕ
  failed : ℕ
deriving DecidableEq, Repr

/-- An element of an import payload array: either a plain sample object
(no `t` field) or a compressed one (`{t, l:{mi,mx,me,p50,p95,p99},
e:{u,a,i}}` as produced by `_compressSample`). -/
inductive ImportSample where
  | plain (s : RawSample)
  | compact (t mi mx me p50 p95 p99 u a i : ℚ)
deriving DecidableEq, Repr

/-- `MetricsCollector._expandSample`: a payload entry with a truthy `t`
field is expanded from the compressed layout; otherwise it is returned as
is (a compressed entry with `t = 0` falls through and is then an object
without `timestamp`/`lag`/`elu`). -/
def expandSample : ImportSample → RawSample
  | .plain s => s
  | .compact t mi mx me p50 p95 p99 u a i =>
    if t ≠ 0 then
      { timestamp := .num t
        lag := some
          { lmin := .num mi, lmax := .num mx, mean := .num me
            p50 := .num p50, p95 := .num p95, p99 := .num p99 }
        elu := some { utilization := .num u, active := .num a, idle := .num i } }
    else { timestamp := .absent, lag := none, elu := none }

/-- The claim-relevant content of an `exportJSON` payload: the exported
sample array plus its length (timestamps/stats metadata omitted). -/
structure ExportData where
  sampleCount : ℕ
  samples : List RawSample
deriving DecidableEq, Repr

/-- `MetricsCollector.exportJSON(count)` without compression: serializes
`getHistory(count)`. -/
def exportJSON (c : Collector) (count : Option ℕ) : ExportData :=
  let samples := getHistoryN c count
  { sampleCount := samples.length, samples := samples }

/-- A parsed `importJSON` payload: a JSON parse failure, a parse result
that is not an array (and has no `samples` array), or the sample array
taken from `data.samples || data`. -/
inductive ImportPayload where
  | parseError
  | notArray
  | array (samples : List ImportSample)

/-- One `forEach` step of `importJSON`: expand the entry, `addSample` it,
and count it as imported or failed. -/
def importStep (acc : ℕ × ℕ × Collector) (entry : ImportSample) :
    ℕ × ℕ × Collector :=
  let r := addSample acc.2.2 (expandSample entry)
  if r.1 then (acc.1 + 1, acc.2.1, r.2) else (acc.1, acc.2.1 + 1, r.2)

/-- `MetricsCollector.importJSON(json, {append})`: a parse failure or a
non-array payload throws (modelled as `none`) before any state change;
otherwise the buffer is reset first unless `append`, and every entry is
expanded and re-added, counting successes and failures. -/
def importJSON (c : Collector) (payload : ImportPayload)
    (append : Bool := false) : Option ImportResult × Collector :=
  match payload with
  | .parseError => (none, c)
  | .notArray => (none, c)
  | .array samples =>
    let c0 := if append then c else reset c false
    let r := samples.foldl importStep (0, 0, c0)
    (some { imported := r.1, failed := r.2.1 }, r.2.2)

/-! ## `EventLoopMonitor.getHealth` -/

/-- The merged threshold configuration used by `getHealth`. -/
structure Thresholds where
  lagWarning : ℚ
  lagCritical : ℚ
  eluWarning : ℚ
  eluCritical : ℚ
  memoryWarning : ℚ
  memoryCritical : ℚ
deriving DecidableEq, Repr

/-- The constructor call-site overrides (each `none` falls back to the
documented default). -/
structure ThresholdOverrides where
  lagWarning : Option ℚ := none
  lagCritical : Option ℚ := none
  eluWarning : Option ℚ := none
  eluCritical : Option ℚ := none
  memoryWarning : Option ℚ := none
  memoryCritical : Option ℚ := none

/-- `{...defaults, ...thresholds}` in `getHealth`. -/
def mergeThresholds (o : ThresholdOverrides) : Thresholds :=
  { lagWarning := o.lagWarning.getD 50
    lagCritical := o.lagCritical.getD 100
    eluWarning := o.eluWarning.getD (7 / 10)
    eluCritical := o.eluCritical.getD (9 / 10)
    memoryWarning := o.memoryWarning.getD (8 / 10)
    memoryCritical := o.memoryCritical.getD (9 / 10) }

/-- The fields of the current sample read by `getHealth` (`lag.mean`,
`lag.p99`, `elu.utilization`, and the optional heap-used/heap-total MB
pair parsed from the memory block). -/
structure HealthSample where
  lagMean : ℚ
  lagP99 : ℚ
  eluUtilization : ℚ
  memory : Option (ℚ × ℚ)
deriving DecidableEq, Repr

/-- The four health statuses. -/
inductive HealthStatus where
  | unknown
  | healthy
  | degraded
  | critical
deriving DecidableEq, Repr

/-- The claim-relevant part of a `getHealth` result. -/
structure HealthResult where
  status : HealthStatus
  score : ℚ
deriving DecidableEq, Repr

/-- `Math.round(x * 10) / 10`: rounding to one decimal, half away from
zero upward as JavaScript does. -/
def jsRound1 (x : ℚ) : ℚ := (⌊x * 10 + 1 / 2⌋ : ℚ) / 10

/-- The proportional lag assessment block of `getHealth`: updates the
running `(score, status)` pair. -/
def lagStep (t : Thresholds) (lagMean : ℚ) (acc : ℚ × HealthStatus) :
    ℚ × HealthStatus :=
  if 0 < lagMean then
    if t.lagCritical ≤ lagMean then
      (acc.1 - (40 + min ((lagMean - t.lagCritical) / t.lagCritical) 2 * 20),
       .critical)
    else if t.lagWarning ≤ lagMean then
      (acc.1 -
         (10 + min ((lagMean - t.lagWarning) / (t.lagCritical - t.lagWarning))
           1 * 20),
       if acc.2 = .healthy then .degraded else acc.2)
    else if 10 < lagMean then
      (acc.1 - min (lagMean / t.lagWarning) 1 * 10, acc.2)
    else acc
  else acc

/-- The proportional ELU assessment block of `getHealth`. -/
def eluStep (t : Thresholds) (elu : ℚ) (acc : ℚ × HealthStatus) :
    ℚ × HealthStatus :=
  if 0 < elu then
    if t.eluCritical ≤ elu then
      (acc.1 - (40 + min ((elu - t.eluCritical) / (1 - t.eluCritical)) 1 * 20),
       .critical)
    else if t.eluWarning ≤ elu then
      (acc.1 -
         (10 + min ((elu - t.eluWarning) / (t.eluCritical - t.eluWarning))
           1 * 20),
       if acc.2 = .healthy then .degraded else acc.2)
    else if 1 / 2 < elu then
      (acc.1 - (elu - 1 / 2) / (t.eluWarning - 1 / 2) * 10, acc.2)
    else acc
  else acc

/-- The proportional memory assessment block of `getHealth` (skipped when
the sample has no memory block). -/
def memStep (t : Thresholds) (memory : Option (ℚ × ℚ)) (acc : ℚ × HealthStatus) :
    ℚ × HealthStatus :=
  match memory with
  | none => acc
  | some (heapUsed, heapTotal) =>
    let r := heapUsed / heapTotal
    if t.memoryCritical ≤ r then
      (acc.1 - (30 + min ((r - t.memoryCritical) / (1 - t.memoryCritical)) 1 * 15),
       .critical)
    else if t.memoryWarning ≤ r then
      (acc.1 -
         (5 + (r - t.memoryWarning) / (t.memoryCritical - t.memoryWarning) * 15),
       if acc.2 = .healthy then .degraded else acc.2)
    else if 3 / 5 < r then
      (acc.1 - (r - 3 / 5) / (t.memoryWarning - 3 / 5) * 5, acc.2)
    else acc

/-- The p99 lag-spike assessment block of `getHealth`: always subtracts the
spike penalty when `p99 > lagWarning`, and escalates a healthy status to
degraded exactly when `p99 ≥ lagCritical * 2`. -/
def spikeStep (t : Thresholds) (p99 : ℚ) (acc : ℚ × HealthStatus) :
    ℚ × HealthStatus :=
  if t.lagWarning < p99 then
    (acc.1 - min (p99 / (t.lagCritical * 2)) (3 / 2) * 10,
     if t.lagCritical * 2 ≤ p99 then
       (if acc.2 = .healthy then .degraded else acc.2)
     else acc.2)
  else acc

/-- `EventLoopMonitor.getHealth` on the merged thresholds and the current
sample (`none` when `getCurrentMetrics()` returned null): runs the four
assessment blocks in source order starting from `(100, healthy)`, then
clamps the score to `[0, 100]` and rounds to one decimal. -/
def getHealth (t : Thresholds) (current : Option HealthSample) : HealthResult :=
  match current with
  | none => { status := .unknown, score := 0 }
  | some cur =>
    let r :=
      spikeStep t cur.lagP99
        (memStep t cur.memory
          (eluStep t cur.eluUtilization
            (lagStep t cur.lagMean (100, .healthy))))
    { status := r.2, score := jsRound1 (max 0 (min 100 r.1)) }

/-! ## `AlertManager` threshold checks -/

/-- An alert level (`null` is modelled as `none`). -/
inductive AlertLevel where
  | warning
  | critical
deriving DecidableEq, Repr

/-- Per-metric alert state (`alertState.lag` / `alertState.elu`). -/
structure MetricAlertState where
  level : Option AlertLevel
  lastTriggered : Option ℚ
  count : ℕ
deriving DecidableEq, Repr

/-- The fresh per-metric alert state set up by the constructor. -/
def initialAlertState : MetricAlertState :=
  { level := none, lastTriggered := none, count := 0 }

/-- An alert event passed to the `onAlert` callback. -/
inductive AlertEvent where
  | firing (level : AlertLevel)
  | resolved (level : AlertLevel)
deriving DecidableEq, Repr

/-- The level computed from a value and a warning/critical threshold pair
(shared shape of `_checkLagThresholds` and `_checkEluThresholds`). -/
def levelOf (warning critical value : ℚ) : Option AlertLevel :=
  if critical ≤ value then some .critical
  else if warning ≤ value then some .warning
  else none

/-- The cooldown test of the threshold checks: expired when the metric has
never fired or at least `cooldown` ms have passed since the last firing. -/
def cooldownExpiredAt (cooldown : ℚ) (st : MetricAlertState) (now : ℚ) : Bool :=
  match st.lastTriggered with
  | none => true
  | some last => decide (cooldown ≤ now - last)

/-- One threshold-check step (`_checkLagThresholds` on `lag.mean`, and
identically `_checkEluThresholds` on `elu.utilization`): fires when the
new level is non-null and differs from the current level or the cooldown
has expired; emits a resolved event when the level returns to null. -/
def checkStep (warning critical cooldown : ℚ) (st : MetricAlertState)
    (value now : ℚ) : MetricAlertState × List AlertEvent :=
  let newLevel := levelOf warning critical value
  let cooldownExpired := cooldownExpiredAt cooldown st now
  match newLevel with
  | some nl =>
    if some nl != st.level || cooldownExpired then
      ({ level := some nl, lastTriggered := some now, count := st.count + 1 },
       [.firing nl])
    else (st, [])
  | none =>
    match st.level with
    | some cl => ({ st with level := none }, [.resolved cl])
    | none => (st, [])

/-- Default sample value used when reindexing lists (never read on the
in-range indices the lemmas use). -/
def dfltSample : RawSample := { timestamp := .absent, lag := none, elu := none }

/-- Characterization of a collector state after inserting the valid list
`l` into a fresh collector of capacity `C`: capacity and validation flag
are unchanged, the write index and live count follow the insert count, and
every slot holding one of the `min (l.length) C` most recent samples
contains the right sample. -/
def RingSpec (C : ℕ) (l : List RawSample) (c : Collector) : Prop :=
  c.historySize = C ∧
  c.enableValidation = true ∧
  c.samples.length = C ∧
  c.currentIndex = l.length % C ∧
  c.sampleCount = min l.length C ∧
  c.totalSamples = l.length ∧
  c.validationErrors = 0 ∧
  ∀ j : ℕ, l.length ≤ j + C → j < l.length →
    c.samples.getD (j % C) none = l[j]?

/-! ## Extracted penalty and status functions of `getHealth`
(the per-block score subtractions and status conditions, named for use in
the lemmas below) -/

/-- The score penalty subtracted by the lag assessment block. -/
def lagPenalty (t : Thresholds) (m : ℚ) : ℚ :=
  if 0 < m then
    if t.lagCritical ≤ m then
      40 + min ((m - t.lagCritical) / t.lagCritical) 2 * 20
    else if t.lagWarning ≤ m then
      10 + min ((m - t.lagWarning) / (t.lagCritical - t.lagWarning)) 1 * 20
    else if 10 < m then min (m / t.lagWarning) 1 * 10
    else 0
  else 0

/-- The score penalty subtracted by the ELU assessment block. -/
def eluPenalty (t : Thresholds) (u : ℚ) : ℚ :=
  if 0 < u then
    if t.eluCritical ≤ u then
      40 + min ((u - t.eluCritical) / (1 - t.eluCritical)) 1 * 20
    else if t.eluWarning ≤ u then
      10 + min ((u - t.eluWarning) / (t.eluCritical - t.eluWarning)) 1 * 20
    else if 1 / 2 < u then (u - 1 / 2) / (t.eluWarning - 1 / 2) * 10
    else 0
  else 0

/-- The score penalty subtracted by the memory assessment block. -/
def memPenalty (t : Thresholds) (memory : Option (ℚ × ℚ)) : ℚ :=
  match memory with
  | none => 0
  | some (heapUsed, heapTotal) =>
    let r := heapUsed / heapTotal
    if t.memoryCritical ≤ r then
      30 + min ((r - t.memoryCritical) / (1 - t.memoryCritical)) 1 * 15
    else if t.memoryWarning ≤ r then
      5 + (r - t.memoryWarning) / (t.memoryCritical - t.memoryWarning) * 15
    else if 3 / 5 < r then (r - 3 / 5) / (t.memoryWarning - 3 / 5) * 5
    else 0

/-- The score penalty subtracted by the p99 lag-spike assessment block. -/
def spikePenalty (t : Thresholds) (p99 : ℚ) : ℚ :=
  if t.lagWarning < p99 then min (p99 / (t.lagCritical * 2)) (3 / 2) * 10
  else 0

/-! ## Definitions following the specification's words (refinement
targets to compare with the code-derived definitions) -/

/-- The specification's linear-interpolation percentile read at a
(possibly fractional) index: the value interpolated linearly between the
two bracketing order statistics of the sorted array (§4.2 of the spec). -/
def interpAt (l : List ℚ) (idx : ℚ) : ℚ :=
  l.getD (⌊idx⌋).toNat 0 * (1 - (idx - (⌊idx⌋ : ℚ))) +
    l.getD (⌈idx⌉).toNat 0 * (idx - (⌊idx⌋ : ℚ))

/-- The spec's lag penalty (§4.3): critical tier
`40 + min((mean-critical)/critical, 2)*20`; warning tier
`10 + clamp((mean-warning)/(critical-warning), 0, 1)*20`; below that a
small penalty up to 10 points proportional to `mean/warning` when
`mean > 10`. -/
def lagPenaltySpec (t : Thresholds) (m : ℚ) : ℚ :=
  if 0 < m then
    if t.lagCritical ≤ m then
      40 + min ((m - t.lagCritical) / t.lagCritical) 2 * 20
    else if t.lagWarning ≤ m then
      10 + max 0 (min ((m - t.lagWarning) / (t.lagCritical - t.lagWarning)) 1)
        * 20
    else if 10 < m then min (m / t.lagWarning) 1 * 10
    else 0
  else 0

/-- The spec's utilization penalty (§4.3): the same tiered shape with
critical penalty `40 + min((u-critical)/(1-critical), 1)*20`, warning
penalty `10 + clamp(ratio, 0, 1)*20`, and the sub-warning moderate-load
tier above 0.5. -/
def eluPenaltySpec (t : Thresholds) (u : ℚ) : ℚ :=
  if 0 < u then
    if t.eluCritical ≤ u then
      40 + min ((u - t.eluCritical) / (1 - t.eluCritical)) 1 * 20
    else if t.eluWarning ≤ u then
      10 + max 0 (min ((u - t.eluWarning) / (t.eluCritical - t.eluWarning)) 1)
        * 20
    else if 1 / 2 < u then (u - 1 / 2) / (t.eluWarning - 1 / 2) * 10
    else 0
  else 0

/-- The spec's memory penalty (§4.3): critical
`30 + min((r-crit)/(1-crit), 1)*15`; warning `5 + ratio*15`; a minor
penalty up to 5 points when the ratio is between 0.6 and the warning
threshold. -/
def memPenaltySpec (t : Thresholds) (memory : Option (ℚ × ℚ)) : ℚ :=
  match memory with
  | none => 0
  | some p =>
    let r := p.1 / p.2
    if t.memoryCritical ≤ r then
      30 + min ((r - t.memoryCritical) / (1 - t.memoryCritical)) 1 * 15
    else if t.memoryWarning ≤ r then
      5 + (r - t.memoryWarning) / (t.memoryCritical - t.memoryWarning) * 15
    else if 3 / 5 < r then (r - 3 / 5) / (t.memoryWarning - 3 / 5) * 5
    else 0

/-- The spec's p99 spike penalty (§4.3):
`min(p99/(criticalLag*2), 1.5)*10` for p99 spikes above the warning
threshold. -/
def spikePenaltySpec (t : Thresholds) (p99 : ℚ) : ℚ :=
  if t.lagWarning < p99 then min (p99 / (t.lagCritical * 2)) (3 / 2) * 10
  else 0

/-! ## Claim-side alert predicates -/

/-- Rank of an alert level for the claim's "transitions upward" ordering:
`null < warning < critical`. -/
def levelRank : Option AlertLevel → ℕ
  | none => 0
  | some .warning => 1
  | some .critical => 2

/-- The firing condition exactly as the claim states it: the level
transitioned upward, or it is unchanged, non-null, and the cooldown window
has elapsed since the last firing. -/
def claimFires (prev new : Option AlertLevel) (cooldownExpired : Bool) : Prop :=
  levelRank prev < levelRank new ∨
    (new = prev ∧ new ≠ none ∧ cooldownExpired = true)

/-! ## Concrete demonstration values (used by witnesses and
counterexamples) -/

/-- A lag object with all required subfields numeric. -/
def demoLag : RawLag :=
  { lmin := .num 1, lmax := .num 2, mean := .num 1
    p50 := .num 1, p95 := .num 2, p99 := .num 2 }

/-- An elu object with all subfields numeric. -/
def demoElu : RawElu :=
  { utilization := .num (1 / 2), active := .num 1, idle := .num 1 }

/-- A valid sample at timestamp `t` (for `t ≠ 0`). -/
def demoSample (t : ℚ) : RawSample :=
  { timestamp := .num t, lag := some demoLag, elu := some demoElu }

/-- A sample with a numeric timestamp and no `lag`/`elu` objects. -/
def demoNoLag : RawSample := { timestamp := .num 5, lag := none, elu := none }

/-- A sample rejected by validation (non-numeric timestamp). -/
def demoBadSample : RawSample :=
  { timestamp := .nonNum, lag := none, elu := none }

/-! ## Lemmas about the circular buffer -/

theorem addSample_ok {c : Collector} {s : RawSample}
    (h0 : c.historySize ≠ 0) (hv : validateSample s = true) :
    addSample c s =
      (true,
       { c with
         samples := c.samples.set c.currentIndex (some s)
         currentIndex := (c.currentIndex + 1) % c.historySize
         sampleCount :=
           if c.sampleCount < c.historySize then c.sampleCount + 1
           else c.sampleCount
         totalSamples := c.totalSamples + 1 }) := by
  simp [addSample, h0, hv]

theorem insertAll_append (c : Collector) (l : List RawSample) (s : RawSample) :
    insertAll c (l ++ [s]) = (addSample (insertAll c l) s).2 := by
  simp [insertAll, List.foldl_append]

theorem mod_ne_of_window {C j n : ℕ} (hC : 0 < C) (hlt : j < n)
    (hwin : n < j + C) : j % C ≠ n % C := by
  intro heq
  have hmod : j ≡ n [MOD C] := heq
  have hdvd : C ∣ n - j := (Nat.modEq_iff_dvd' (Nat.le_of_lt hlt)).mp hmod
  have hpos : 0 < n - j := by omega
  have := Nat.le_of_dvd hpos hdvd
  omega

theorem insertAll_ringSpec (C : ℕ) (hC : 0 < C) (l : List RawSample)
    (hv : ∀ s ∈ l, validateSample s = true) :
    RingSpec C l (insertAll (mkCollector C) l) := by
  induction l using List.reverseRecOn with
  | nil =>
    refine ⟨rfl, rfl, by simp [insertAll, mkCollector], by simp [insertAll, mkCollector],
      by simp [insertAll, mkCollector], rfl, rfl, ?_⟩
    intro j _ hj
    simp at hj
  | append_singleton l s ih =>
    have hvl : ∀ x ∈ l, validateSample x = true := fun x hx =>
      hv x (List.mem_append_left _ hx)
    have hvs : validateSample s = true := hv s (by simp)
    obtain ⟨h1, h2, h3, h4, h5, h6, h7, hslot⟩ := ih hvl
    set c := insertAll (mkCollector C) l with hc
    have h0 : c.historySize ≠ 0 := by omega
    rw [insertAll_append, addSample_ok h0 hvs]
    refine ⟨h1, h2, ?_, ?_, ?_, ?_, ?_, ?_⟩
    · simpa [h1] using h3
    · simp [h1, h4, Nat.mod_add_mod, List.length_append]
    · simp only [h1, h5, Nat.min_def, List.length_append, List.length_singleton]
      split_ifs <;> omega
    · simp [h6]
    · exact h7
    · intro j hwin hj
      simp only [List.length_append, List.length_singleton] at hwin hj
      rcases Nat.lt_succ_iff_lt_or_eq.mp hj with hjlt | hjeq
      · have hne : j % C ≠ c.currentIndex := by
          rw [h4]
          exact mod_ne_of_window hC hjlt (by omega)
        have hjC : j % C < c.samples.length := by
          rw [h3]; exact Nat.mod_lt _ hC
        rw [List.getD_eq_getElem?_getD, List.getElem?_set_ne (Ne.symm hne),
          ← List.getD_eq_getElem?_getD, List.getElem?_append_left hjlt]
        exact hslot j (by omega) hjlt
      · have hidx : c.currentIndex = j % C := by rw [h4, hjeq]
        have hbound : c.currentIndex < c.samples.length := by
          rw [h3, h4]; exact Nat.mod_lt _ hC
        rw [List.getD_eq_getElem?_getD, ← hidx, List.getElem?_set_self hbound,
          hjeq, List.getElem?_concat_length]
        rfl

theorem drop_eq_range_map (l : List RawSample) (k rc : ℕ)
    (hk : k + rc = l.length) :
    l.drop k = (List.range rc).map (fun i => (l[k + i]?).getD dfltSample) := by
  apply List.ext_getElem
  · simp; omega
  · intro i h1 h2
    have hki : k + i < l.length := by
      simp at h1; omega
    simp [List.getElem_drop, List.getElem?_eq_getElem hki]

theorem range_filterMap_eq (rc : ℕ) (F : ℕ → Option RawSample)
    (G : RawSample → Option RawSample) (l : List RawSample) (k : ℕ)
    (hk : k + rc = l.length)
    (h : ∀ i < rc, F i = G ((l[k + i]?).getD dfltSample)) :
    (List.range rc).filterMap F = (l.drop k).filterMap G := by
  rw [drop_eq_range_map l k rc hk, List.filterMap_map]
  exact List.filterMap_congr (fun i hi => h i (List.mem_range.mp hi))

theorem ring_read_slot (C : ℕ) (hC : 0 < C) (l : List RawSample)
    (c : Collector) (spec : RingSpec C l c) (rc : ℕ)
    (hrc : rc ≤ min l.length C) (i : ℕ) (hi : i < rc) :
    c.samples.getD
      (((if c.sampleCount < c.historySize then c.sampleCount - rc
         else (c.currentIndex + c.historySize - rc) % c.historySize) + i) %
        c.historySize)
      none = l[l.length - rc + i]? := by
  obtain ⟨h1, h2, h3, h4, h5, h6, h7, hslot⟩ := spec
  have hrcN : rc ≤ l.length := le_trans hrc (min_le_left _ _)
  have hrcC : rc ≤ C := le_trans hrc (min_le_right _ _)
  rw [h1, h4, h5]
  by_cases hcase : min l.length C < C
  · have hNC : l.length < C := by
      rw [Nat.min_def] at hcase; split_ifs at hcase <;> omega
    have hmin : min l.length C = l.length := min_eq_left (le_of_lt hNC)
    rw [if_pos hcase, hmin]
    exact hslot (l.length - rc + i) (by omega) (by omega)
  · have hCN : C ≤ l.length := by
      rw [Nat.min_def] at hcase; split_ifs at hcase <;> omega
    rw [if_neg hcase, Nat.mod_add_mod]
    have e1 : l.length % C + C - rc + i = l.length % C + (C - rc + i) := by
      omega
    have e2 : l.length + (C - rc + i) = l.length - rc + i + C := by omega
    rw [e1, Nat.mod_add_mod, e2, Nat.add_mod_right]
    exact hslot (l.length - rc + i) (by omega) (by omega)

theorem getHistory_eval (C : ℕ) (hC : 0 < C) (l : List RawSample)
    (c : Collector) (spec : RingSpec C l c) (q : HistoryQuery)
    (hso : q.sortOrder = .asc) :
    getHistory c q =
      (l.drop (l.length - requestedCountOf q (min l.length C))).filterMap
        (historyKeep q) := by
  have hcopy := spec
  obtain ⟨h1, h2, h3, h4, h5, h6, h7, hslot⟩ := spec
  by_cases hN : l.length = 0
  · have hl : l = [] := List.length_eq_zero.mp hN
    subst hl
    simp [getHistory, h5]
  · have hsc0 : c.sampleCount ≠ 0 := by
      rw [h5, Nat.min_def]; split_ifs <;> omega
    have hrcle : requestedCountOf q (min l.length C) ≤ min l.length C :=
      min_le_right _ _
    have hrcN : requestedCountOf q (min l.length C) ≤ l.length :=
      le_trans hrcle (min_le_left _ _)
    have hrc5 : requestedCountOf q c.sampleCount =
        requestedCountOf q (min l.length C) := by rw [h5]
    simp only [getHistory, if_neg hsc0, hso]
    rw [hrc5]
    apply range_filterMap_eq _ _ _ l
      (l.length - requestedCountOf q (min l.length C)) (by omega)
    intro i hi
    have hread := ring_read_slot C hC l c hcopy _ hrcle i hi
    have hki :
        l.length - requestedCountOf q (min l.length C) + i < l.length := by
      omega
    simp only [hread, List.getElem?_eq_getElem hki]
    rfl

theorem getHistoryAll_eval (C : ℕ) (hC : 0 < C) (l : List RawSample)
    (c : Collector) (spec : RingSpec C l c) :
    getHistoryAll c = l.drop (l.length - min l.length C) := by
  rw [getHistoryAll, getHistory_eval C hC l c spec _ rfl]
  have h1 : requestedCountOf {} (min l.length C) = min l.length C := by
    simp [requestedCountOf, optTruthy]
  have h2 : historyKeep ({} : HistoryQuery) = some :=
    funext fun s => by simp [historyKeep, optTruthy]
  rw [h1, h2, List.filterMap_some]

theorem getHistoryN_eval (C : ℕ) (hC : 0 < C) (l : List RawSample)
    (c : Collector) (spec : RingSpec C l c) (n : ℕ) (hn : n ≠ 0) :
    getHistoryN c (some n) = l.drop (l.length - min n (min l.length C)) := by
  rw [getHistoryN, getHistory_eval C hC l c spec _ rfl]
  have h1 : requestedCountOf { count := some n } (min l.length C) =
      min n (min l.length C) := by
    simp [requestedCountOf, optTruthy, hn]
  have h2 : historyKeep ({ count := some n } : HistoryQuery) = some :=
    funext fun s => by simp [historyKeep, optTruthy]
  rw [h1, h2, List.filterMap_some]

theorem filterMap_skip_eq_filter (p : RawSample → Bool) (l : List RawSample) :
    l.filterMap (fun s => if p s then none else some s) =
      l.filter (fun s => !p s) := by
  induction l with
  | nil => rfl
  | cons hd tl ih => cases hp : p hd <;> simp [hp, ih]

theorem getHistory_duration_eval (C : ℕ) (hC : 0 < C) (l : List RawSample)
    (c : Collector) (spec : RingSpec C l c) (cnt : Option ℕ) (d now : ℚ)
    (hd : d ≠ 0) :
    getHistory c { count := cnt, duration := some d, now := now } =
      (l.drop (l.length - min l.length C)).filter
        (fun s => !decide (s.ts < now - d)) := by
  rw [getHistory_eval C hC l c spec _ rfl]
  have h1 : requestedCountOf { count := cnt, duration := some d, now := now }
      (min l.length C) = min l.length C := by
    simp [requestedCountOf, optTruthy, hd]
  have h2 : historyKeep ({ count := cnt, duration := some d, now := now } :
      HistoryQuery) =
      fun s => if decide (s.ts < now - d) then none else some s :=
    funext fun s => by simp [historyKeep, optTruthy, hd]
  rw [h1, h2, filterMap_skip_eq_filter]

theorem filterMap_keep_eq_filter (p : RawSample → Bool) (l : List RawSample) :
    l.filterMap (fun s => if p s then some s else none) = l.filter p := by
  induction l with
  | nil => rfl
  | cons hd tl ih => cases hp : p hd <;> simp [hp, ih]

theorem historyKeep_eq_filter (q : HistoryQuery) (s : RawSample) :
    historyKeep q s =
      if (!(optTruthy q.startTime && decide (s.ts < q.startTime.getD 0)) &&
          !(optTruthy q.endTime && decide (q.endTime.getD 0 < s.ts)) &&
          !(optTruthy q.duration &&
            decide (s.ts < q.now - q.duration.getD 0)) &&
          (match q.filterP with
           | some f => f s
           | none => true)) = true then some s else none := by
  unfold historyKeep
  cases hb1 : (optTruthy q.startTime && decide (s.ts < q.startTime.getD 0)) <;>
    cases hb2 : (optTruthy q.endTime && decide (q.endTime.getD 0 < s.ts)) <;>
    cases hb3 : (optTruthy q.duration &&
      decide (s.ts < q.now - q.duration.getD 0)) <;>
    rcases hfp : q.filterP with _ | f <;>
    simp [hb1, hb2, hb3, hfp] <;>
    (try (cases hfs : f s <;> simp [hfs]))

theorem historyKeep_sortOrder (q : HistoryQuery) (x : SortOrder)
    (s : RawSample) : historyKeep { q with sortOrder := x } s =
      historyKeep q s := rfl

theorem requestedCountOf_sortOrder (q : HistoryQuery) (x : SortOrder)
    (sc : ℕ) : requestedCountOf { q with sortOrder := x } sc =
      requestedCountOf q sc := rfl

theorem getHistory_desc (c : Collector) (q : HistoryQuery) :
    getHistory c { q with sortOrder := .desc } =
      (getHistory c { q with sortOrder := .asc }).reverse := by
  by_cases h : c.sampleCount = 0
  · simp [getHistory, h]
  · simp only [getHistory, if_neg h]
    rfl

theorem addSample_invalid {c : Collector} {s : RawSample}
    (h0 : c.historySize ≠ 0) (hval : c.enableValidation = true)
    (hv : validateSample s = false) :
    addSample c s =
      (false, { c with validationErrors := c.validationErrors + 1 }) := by
  simp [addSample, h0, hval, hv]

theorem addSample_capacity0 {c : Collector} (s : RawSample)
    (h : c.historySize = 0) : addSample c s = (false, c) := by
  simp [addSample, h]

theorem insertAll_capacity0 (l : List RawSample) (c : Collector)
    (h : c.historySize = 0) : insertAll c l = c := by
  induction l with
  | nil => rfl
  | cons hd tl ih =>
    show insertAll (addSample c hd).2 tl = c
    rw [addSample_capacity0 hd h]
    exact ih

theorem getHistory_empty (c : Collector) (q : HistoryQuery)
    (h : c.sampleCount = 0) : getHistory c q = [] := by
  simp [getHistory, h]

theorem addSample_historySize (c : Collector) (s : RawSample) :
    (addSample c s).2.historySize = c.historySize := by
  unfold addSample; split_ifs <;> rfl

theorem addSample_enableValidation (c : Collector) (s : RawSample) :
    (addSample c s).2.enableValidation = c.enableValidation := by
  unfold addSample; split_ifs <;> rfl

theorem insertAll_cons (c : Collector) (s : RawSample) (l : List RawSample) :
    insertAll c (s :: l) = insertAll (addSample c s).2 l := rfl

theorem importFold_valid (l : List RawSample) (c : Collector) (i f : ℕ)
    (h0 : c.historySize ≠ 0) (hv : ∀ s ∈ l, validateSample s = true) :
    (l.map ImportSample.plain).foldl importStep (i, f, c) =
      (i + l.length, f, insertAll c l) := by
  induction l generalizing c i with
  | nil => simp [insertAll]
  | cons hd tl ih =>
    have hhd : validateSample hd = true := hv hd (by simp)
    have htl : ∀ s ∈ tl, validateSample s = true := fun s hs =>
      hv s (by simp [hs])
    have hstep : importStep (i, f, c) (ImportSample.plain hd) =
        (i + 1, f, (addSample c hd).2) := by
      simp only [importStep, expandSample]
      rw [addSample_ok h0 hhd]
      simp
    have h0' : (addSample c hd).2.historySize ≠ 0 := by
      rw [addSample_historySize]; exact h0
    simp only [List.map_cons, List.foldl_cons, hstep, insertAll_cons]
    rw [ih _ _ h0' htl]
    simp only [List.length_cons, Prod.mk.injEq]
    refine ⟨by omega, trivial⟩

theorem importFold_invalid (entries : List ImportSample) (c : Collector)
    (i f : ℕ) (hval : c.enableValidation = true)
    (hbad : ∀ e ∈ entries, validateSample (expandSample e) = false) :
    (entries.foldl importStep (i, f, c)).1 = i ∧
    (entries.foldl importStep (i, f, c)).2.1 = f + entries.length ∧
    (entries.foldl importStep (i, f, c)).2.2.samples = c.samples ∧
    (entries.foldl importStep (i, f, c)).2.2.sampleCount = c.sampleCount := by
  induction entries generalizing c i f with
  | nil => simp
  | cons hd tl ih =>
    have hhd : validateSample (expandSample hd) = false := hbad hd (by simp)
    have htl : ∀ e ∈ tl, validateSample (expandSample e) = false := fun e he =>
      hbad e (by simp [he])
    by_cases h0 : c.historySize = 0
    · have hstep : importStep (i, f, c) hd = (i, f + 1, c) := by
        simp only [importStep]
        rw [addSample_capacity0 _ h0]
        simp
      simp only [List.foldl_cons, hstep]
      have := ih c i (f + 1) hval htl
      refine ⟨this.1, ?_, this.2.2.1, this.2.2.2⟩
      rw [this.2.1, List.length_cons]; omega
    · have hstep : importStep (i, f, c) hd =
          (i, f + 1, { c with validationErrors := c.validationErrors + 1 }) := by
        simp only [importStep]
        rw [addSample_invalid h0 hval hhd]
        simp
      simp only [List.foldl_cons, hstep]
      have := ih { c with validationErrors := c.validationErrors + 1 } i (f + 1)
        hval htl
      refine ⟨this.1, ?_, this.2.2.1, this.2.2.2⟩
      rw [this.2.1, List.length_cons]; omega

theorem reset_mkCollector (C : ℕ) : reset (mkCollector C) false = mkCollector C :=
  rfl

/-! ## Lemmas about `getHealth` -/

theorem lagStep_score (t : Thresholds) (m : ℚ) (acc : ℚ × HealthStatus) :
    (lagStep t m acc).1 = acc.1 - lagPenalty t m := by
  unfold lagStep lagPenalty
  split_ifs <;> ring

theorem eluStep_score (t : Thresholds) (u : ℚ) (acc : ℚ × HealthStatus) :
    (eluStep t u acc).1 = acc.1 - eluPenalty t u := by
  unfold eluStep eluPenalty
  split_ifs <;> ring

theorem memStep_score (t : Thresholds) (mem : Option (ℚ × ℚ))
    (acc : ℚ × HealthStatus) :
    (memStep t mem acc).1 = acc.1 - memPenalty t mem := by
  rcases mem with _ | ⟨hu, ht⟩
  · simp [memStep, memPenalty]
  · unfold memStep memPenalty
    simp only
    split_ifs <;> ring

theorem spikeStep_score (t : Thresholds) (p99 : ℚ) (acc : ℚ × HealthStatus) :
    (spikeStep t p99 acc).1 = acc.1 - spikePenalty t p99 := by
  unfold spikeStep spikePenalty
  split_ifs <;> ring

theorem getHealth_score (t : Thresholds) (cur : HealthSample) :
    (getHealth t (some cur)).score =
      jsRound1 (max 0 (min 100
        (100 - (lagPenalty t cur.lagMean + eluPenalty t cur.eluUtilization +
          memPenalty t cur.memory + spikePenalty t cur.lagP99)))) := by
  show jsRound1 (max 0 (min 100 _)) = _
  rw [spikeStep_score, memStep_score, eluStep_score, lagStep_score]
  congr 2
  ring_nf

theorem lagStep_crit_iff (t : Thresholds) (m : ℚ) (acc : ℚ × HealthStatus) :
    (lagStep t m acc).2 = .critical ↔
      ((0 < m ∧ t.lagCritical ≤ m) ∨ acc.2 = .critical) := by
  unfold lagStep
  split_ifs <;> simp_all

theorem eluStep_crit_iff (t : Thresholds) (u : ℚ) (acc : ℚ × HealthStatus) :
    (eluStep t u acc).2 = .critical ↔
      ((0 < u ∧ t.eluCritical ≤ u) ∨ acc.2 = .critical) := by
  unfold eluStep
  split_ifs <;> simp_all

theorem memStep_crit_iff (t : Thresholds) (mem : Option (ℚ × ℚ))
    (acc : ℚ × HealthStatus) :
    (memStep t mem acc).2 = .critical ↔
      ((∃ p, mem = some p ∧ t.memoryCritical ≤ p.1 / p.2) ∨
        acc.2 = .critical) := by
  rcases mem with _ | ⟨hu, ht⟩
  · simp [memStep]
  · unfold memStep
    simp only
    split_ifs <;> simp_all

theorem spikeStep_crit_iff (t : Thresholds) (p99 : ℚ)
    (acc : ℚ × HealthStatus) :
    (spikeStep t p99 acc).2 = .critical ↔ acc.2 = .critical := by
  unfold spikeStep
  split_ifs <;> simp_all

theorem getHealth_crit_iff (t : Thresholds) (cur : HealthSample) :
    (getHealth t (some cur)).status = .critical ↔
      ((0 < cur.lagMean ∧ t.lagCritical ≤ cur.lagMean) ∨
       (0 < cur.eluUtilization ∧ t.eluCritical ≤ cur.eluUtilization) ∨
       (∃ p, cur.memory = some p ∧ t.memoryCritical ≤ p.1 / p.2)) := by
  show (spikeStep _ _ _).2 = _ ↔ _
  rw [spikeStep_crit_iff, memStep_crit_iff, eluStep_crit_iff, lagStep_crit_iff]
  have hbase : (((100 : ℚ), HealthStatus.healthy).2 = HealthStatus.critical) ↔
      False := by simp
  rw [hbase]
  constructor
  · rintro (hmem | helu | hlag | hfalse)
    · exact Or.inr (Or.inr hmem)
    · exact Or.inr (Or.inl helu)
    · exact Or.inl hlag
    · exact hfalse.elim
  · rintro (hlag | helu | hmem)
    · exact Or.inr (Or.inr (Or.inl hlag))
    · exact Or.inr (Or.inl helu)
    · exact Or.inl hmem

theorem lagStep_status_id (t : Thresholds) (m : ℚ) (acc : ℚ × HealthStatus)
    (h1 : ¬(0 < m ∧ t.lagWarning ≤ m)) (h2 : ¬(0 < m ∧ t.lagCritical ≤ m)) :
    (lagStep t m acc).2 = acc.2 := by
  unfold lagStep
  split_ifs <;> simp_all

theorem eluStep_status_id (t : Thresholds) (u : ℚ) (acc : ℚ × HealthStatus)
    (h1 : ¬(0 < u ∧ t.eluWarning ≤ u)) (h2 : ¬(0 < u ∧ t.eluCritical ≤ u)) :
    (eluStep t u acc).2 = acc.2 := by
  unfold eluStep
  split_ifs <;> simp_all

theorem memStep_status_id (t : Thresholds) (mem : Option (ℚ × ℚ))
    (acc : ℚ × HealthStatus)
    (h1 : ¬(∃ p, mem = some p ∧ t.memoryWarning ≤ p.1 / p.2))
    (h2 : ¬(∃ p, mem = some p ∧ t.memoryCritical ≤ p.1 / p.2)) :
    (memStep t mem acc).2 = acc.2 := by
  rcases mem with _ | ⟨hu, ht⟩
  · simp [memStep]
  · simp only [Option.some.injEq] at h1 h2
    unfold memStep
    simp only
    split_ifs <;> simp_all

theorem spikeStep_from_healthy (t : Thresholds) (p99 : ℚ)
    (acc : ℚ × HealthStatus) (h : acc.2 = .healthy) :
    ((spikeStep t p99 acc).2 = .degraded ↔
      (t.lagWarning < p99 ∧ t.lagCritical * 2 ≤ p99)) := by
  unfold spikeStep
  split_ifs <;> simp_all

theorem lagPenalty_eq_spec (t : Thresholds) (m : ℚ) :
    lagPenalty t m = lagPenaltySpec t m := by
  unfold lagPenalty lagPenaltySpec
  split_ifs with h1 h2 h3 h4
  any_goals rfl
  have hr : (0 : ℚ) ≤ (m - t.lagWarning) / (t.lagCritical - t.lagWarning) :=
    div_nonneg (by linarith) (by linarith)
  rw [max_eq_right (le_min hr zero_le_one)]

theorem eluPenalty_eq_spec (t : Thresholds) (u : ℚ) :
    eluPenalty t u = eluPenaltySpec t u := by
  unfold eluPenalty eluPenaltySpec
  split_ifs with h1 h2 h3 h4
  any_goals rfl
  have hr : (0 : ℚ) ≤ (u - t.eluWarning) / (t.eluCritical - t.eluWarning) :=
    div_nonneg (by linarith) (by linarith)
  rw [max_eq_right (le_min hr zero_le_one)]

theorem memPenalty_eq_spec (t : Thresholds) (mem : Option (ℚ × ℚ)) :
    memPenalty t mem = memPenaltySpec t mem := by
  rcases mem with _ | ⟨hu, ht⟩ <;> rfl

theorem spikePenalty_eq_spec (t : Thresholds) (p99 : ℚ) :
    spikePenalty t p99 = spikePenaltySpec t p99 := rfl

theorem lagPenalty_mono (t : Thresholds) (hc : 0 < t.lagCritical)
    {m1 m2 : ℚ} (h : m1 ≤ m2) : lagPenalty t m1 ≤ lagPenalty t m2 := by
  unfold lagPenalty
  split_ifs
  all_goals
    first
    | linarith
    | (gcongr <;> linarith)
    | nlinarith [le_min
        (div_nonneg (by linarith : (0:ℚ) ≤ m2 - t.lagCritical) hc.le)
        (by norm_num : (0:ℚ) ≤ 2),
        min_le_right ((m1 - t.lagWarning) / (t.lagCritical - t.lagWarning))
          (1:ℚ),
        min_le_right (m1 / t.lagWarning) (1:ℚ)]
    | nlinarith [le_min
        (div_nonneg (by linarith : (0:ℚ) ≤ m2 - t.lagWarning)
          (by linarith : (0:ℚ) ≤ t.lagCritical - t.lagWarning))
        zero_le_one,
        min_le_right (m1 / t.lagWarning) (1:ℚ)]
    | nlinarith [le_min
        (div_nonneg (by linarith : (0:ℚ) ≤ m2)
          (by linarith : (0:ℚ) ≤ t.lagWarning)) zero_le_one]

theorem jsRound1_mono {x y : ℚ} (h : x ≤ y) : jsRound1 x ≤ jsRound1 y := by
  unfold jsRound1
  have h1 : (⌊x * 10 + 1 / 2⌋ : ℤ) ≤ ⌊y * 10 + 1 / 2⌋ :=
    Int.floor_le_floor (by linarith)
  have h2 : ((⌊x * 10 + 1 / 2⌋ : ℤ) : ℚ) ≤ ((⌊y * 10 + 1 / 2⌋ : ℤ) : ℚ) := by
    exact_mod_cast h1
  linarith

/-! ## Lemmas about `percentile` -/

theorem percentile_eq_interpAt (l : List ℚ) (p : ℚ) (hl : l ≠ []) :
    percentile l p = interpAt l ((p / 100) * ((l.length : ℚ) - 1)) := by
  rcases l with _ | ⟨x, _ | ⟨y, tl⟩⟩
  · exact absurd rfl hl
  · show x = interpAt [x] ((p / 100) * ((1 : ℚ) - 1))
    norm_num [interpAt]
  · simp only [percentile]
    set idx : ℚ := (p / 100) * (((x :: y :: tl).length : ℚ) - 1) with hidx
    by_cases hfc : (⌊idx⌋ : ℤ) = ⌈idx⌉
    · rw [if_pos hfc]
      have heq : ((⌊idx⌋ : ℤ) : ℚ) = idx :=
        le_antisymm (Int.floor_le idx)
          ((Int.le_ceil idx).trans_eq (by exact_mod_cast hfc.symm))
      unfold interpAt
      have hw : idx - ((⌊idx⌋ : ℤ) : ℚ) = 0 := by rw [heq]; ring
      rw [hw, ← hfc]
      ring
    · rw [if_neg hfc]
      rfl

/-! ## Claims -/

/-- C1: Ring-buffer retention — for every capacity `C ≥ 1` and every
sequence of valid samples with strictly increasing timestamps inserted via
`addSample`, `getHistory()` returns exactly `min(N, C)` samples in strictly
increasing timestamp order, and they are exactly the `C` most recent of
the `N` inserted when `N > C`, or all `N` when `N ≤ C` (expressed as the
suffix `l.drop (N - C)`). -/
theorem C1_ring_retention (C : ℕ) (hC : 1 ≤ C) (l : List RawSample)
    (hv : ∀ s ∈ l, validateSample s = true)
    (hinc : l.Pairwise (fun a b => a.ts < b.ts)) :
    getHistoryAll (insertAll (mkCollector C) l) = l.drop (l.length - C) ∧
    (getHistoryAll (insertAll (mkCollector C) l)).length = min l.length C ∧
    (getHistoryAll (insertAll (mkCollector C) l)).Pairwise
      (fun a b => a.ts < b.ts) := by
  have h0 : 0 < C := hC
  have heval := getHistoryAll_eval C h0 l _ (insertAll_ringSpec C h0 l hv)
  have hdrop : l.length - min l.length C = l.length - C := by
    rw [Nat.min_def]; split_ifs <;> omega
  refine ⟨?_, ?_, ?_⟩
  · rw [heval, hdrop]
  · rw [heval, List.length_drop, Nat.min_def]
    split_ifs <;> omega
  · rw [heval]
    exact hinc.drop

/-- Witness for C1 at capacity 2 and three inserted samples. -/
theorem C1_ring_retention_witness :
    getHistoryAll (insertAll (mkCollector 2)
        [demoSample 1, demoSample 2, demoSample 3]) =
      ([demoSample 1, demoSample 2, demoSample 3]).drop
        (([demoSample 1, demoSample 2, demoSample 3]).length - 2) :=
  (C1_ring_retention 2 (by norm_num) [demoSample 1, demoSample 2, demoSample 3]
    (by decide) (by decide)).1

/-- C2: Percentile computation — `_percentile` on a non-empty sorted array
equals the spec's linear interpolation at index `(p/100)*(n-1)`; in
particular `_percentile([10,20,30,40,50], 50) = 30`,
`_percentile([x], p) = x` for every `p`, and `_percentile([], p) = 0`. -/
theorem C2_percentile :
    (∀ (l : List ℚ) (p : ℚ), l ≠ [] → 0 ≤ p → p ≤ 100 →
      percentile l p = interpAt l ((p / 100) * ((l.length : ℚ) - 1))) ∧
    percentile [10, 20, 30, 40, 50] 50 = 30 ∧
    (∀ x p : ℚ, percentile [x] p = x) ∧
    (∀ p : ℚ, percentile [] p = 0) := by
  refine ⟨fun l p hl _ _ => percentile_eq_interpAt l p hl, ?_,
    fun x p => rfl, fun p => rfl⟩
  norm_num [percentile]
  decide

/-- Witness for C2 at a fractional interpolation index. -/
theorem C2_percentile_witness :
    percentile [10, 20] 75 =
      interpAt [10, 20] ((75 / 100) * (((10:ℚ) :: [20]).length - 1)) :=
  C2_percentile.1 [10, 20] 75 (by decide) (by norm_num) (by norm_num)

/-- Counterexample to C3 as stated: a sample with a numeric timestamp and
no `lag`/`elu` objects at all is accepted by `addSample` (the claim says a
sample whose `lag` object is absent is rejected with the counter bumped). -/
theorem C3_counterexample :
    demoNoLag.lag = none ∧ demoNoLag.elu = none ∧
    (addSample (mkCollector 3) demoNoLag).1 = true ∧
    (addSample (mkCollector 3) demoNoLag).2.validationErrors = 0 := by
  decide

/-- C3 (amended): with validation enabled and nonzero capacity, a sample
whose timestamp is not a number, or whose *present* `lag` object has a
non-numeric required subfield, or whose *present* `elu` object has a
non-numeric subfield, is rejected: `addSample` returns `false`, increments
`validationErrors`, and leaves the buffer untouched. -/
theorem C3_validation_rejects (c : Collector) (s : RawSample)
    (hval : c.enableValidation = true) (hcap : c.historySize ≠ 0)
    (hbad :
      s.timestamp.isNum = false ∨
      (∃ lg, s.lag = some lg ∧
        (lg.lmin.isNum = false ∨ lg.lmax.isNum = false ∨
         lg.mean.isNum = false ∨ lg.p50.isNum = false ∨
         lg.p95.isNum = false ∨ lg.p99.isNum = false)) ∨
      (∃ e, s.elu = some e ∧
        (e.utilization.isNum = false ∨ e.active.isNum = false ∨
         e.idle.isNum = false))) :
    addSample c s =
      (false, { c with validationErrors := c.validationErrors + 1 }) := by
  have hv : validateSample s = false := by
    rcases hbad with hts | ⟨lg, hlg, hcase⟩ | ⟨e, helu, hcase⟩
    · have hts' : s.timestamp.isTruthyNum = false := by
        cases hx : s.timestamp <;>
          simp_all [Field.isNum, Field.isTruthyNum]
      simp [validateSample, hts']
    · rcases hcase with h | h | h | h | h | h <;>
        simp [validateSample, hlg, h]
    · rcases hcase with h | h | h <;> simp [validateSample, helu, h]
  exact addSample_invalid hcap hval hv

/-- Witness for C3 (amended) at a sample with a non-numeric timestamp. -/
theorem C3_validation_rejects_witness :
    addSample (mkCollector 3) demoBadSample =
      (false,
       { mkCollector 3 with
         validationErrors := (mkCollector 3).validationErrors + 1 }) :=
  C3_validation_rejects (mkCollector 3) demoBadSample rfl (by decide)
    (Or.inl (by decide))

/-- Counterexample to C4 as stated: with capacity 0, `addSample` returns
`false` but does not increment the dropped-counter (nor any counter). -/
theorem C4_counterexample :
    (addSample (mkCollector 0) (demoSample 1)).1 = false ∧
    (addSample (mkCollector 0) (demoSample 1)).2.droppedSamples = 0 ∧
    (addSample (mkCollector 0) (demoSample 1)).2.validationErrors = 0 := by
  decide

/-- C4 (amended): a collector constructed with `historySize` 0 rejects
every insert with `false` without modifying any state (in particular no
counter is incremented), and afterwards `getHistory()` is empty and
`getStats().sampleCount` is 0. -/
theorem C4_zero_capacity (c : Collector) (s : RawSample) (l : List RawSample)
    (h : c.historySize = 0) :
    addSample c s = (false, c) ∧
    insertAll (mkCollector 0) l = mkCollector 0 ∧
    getHistoryAll (insertAll (mkCollector 0) l) = [] ∧
    (getStats (insertAll (mkCollector 0) l)).sampleCount = 0 ∧
    (getStats (insertAll (mkCollector 0) l)).droppedSamples = 0 ∧
    (getStats (insertAll (mkCollector 0) l)).validationErrors = 0 := by
  have hz := insertAll_capacity0 l (mkCollector 0) rfl
  refine ⟨addSample_capacity0 s h, hz, ?_, ?_, ?_, ?_⟩ <;> rw [hz]
  · exact getHistory_empty _ _ rfl
  · rfl
  · rfl
  · rfl

/-- Witness for C4 (amended) on a concrete zero-capacity collector. -/
theorem C4_zero_capacity_witness :
    addSample (mkCollector 0) (demoSample 1) = (false, mkCollector 0) ∧
    getHistoryAll (insertAll (mkCollector 0) [demoSample 1]) = [] ∧
    (getStats (insertAll (mkCollector 0) [demoSample 1])).sampleCount = 0 :=
  have h := C4_zero_capacity (mkCollector 0) (demoSample 1) [demoSample 1] rfl
  ⟨h.1, h.2.2.1, h.2.2.2.1⟩

/-- Counterexample to C5 as stated: with the override
`lagCritical = -100` (a threshold configuration the claim quantifies
over), raising `lag.mean` from 1 to 50 with all other fields fixed
*increases* the health score. -/
theorem C5_counterexample :
    (1 : ℚ) < 50 ∧
    (getHealth (mergeThresholds { lagCritical := some (-100) })
        (some { lagMean := 1, lagP99 := 0, eluUtilization := 0,
                memory := none })).score <
      (getHealth (mergeThresholds { lagCritical := some (-100) })
        (some { lagMean := 50, lagP99 := 0, eluUtilization := 0,
                memory := none })).score := by
  refine ⟨by norm_num, ?_⟩
  norm_num [getHealth, lagStep, eluStep, memStep, spikeStep, jsRound1,
    mergeThresholds, Option.getD]

/-- C5 (amended): for every threshold configuration with a positive
critical lag threshold, increasing `lag.mean` while holding `lag.p99`,
`elu.utilization` and the memory block fixed never increases the score,
and a critical status never moves back to healthy or degraded. -/
theorem C5_health_monotonicity (t : Thresholds) (hc : 0 < t.lagCritical)
    (s1 s2 : HealthSample) (hm : s1.lagMean < s2.lagMean)
    (hp : s1.lagP99 = s2.lagP99) (hu : s1.eluUtilization = s2.eluUtilization)
    (hmem : s1.memory = s2.memory) :
    (getHealth t (some s2)).score ≤ (getHealth t (some s1)).score ∧
    ((getHealth t (some s1)).status = .critical →
      (getHealth t (some s2)).status = .critical) := by
  constructor
  · rw [getHealth_score, getHealth_score, hp, hu, hmem]
    apply jsRound1_mono
    have hl := lagPenalty_mono t hc hm.le
    exact max_le_max le_rfl (min_le_min le_rfl (by linarith))
  · rw [getHealth_crit_iff, getHealth_crit_iff, hu, hmem]
    rintro (⟨hm1, hc1⟩ | h | h)
    · exact Or.inl ⟨by linarith, by linarith⟩
    · exact Or.inr (Or.inl h)
    · exact Or.inr (Or.inr h)

/-- Witness for C5 (amended) at the default thresholds, raising the mean
lag from 10 to 60. -/
theorem C5_health_monotonicity_witness :
    (getHealth (mergeThresholds {})
        (some { lagMean := 60, lagP99 := 0, eluUtilization := 0,
                memory := none })).score ≤
      (getHealth (mergeThresholds {})
        (some { lagMean := 10, lagP99 := 0, eluUtilization := 0,
                memory := none })).score :=
  (C5_health_monotonicity (mergeThresholds {})
    (by norm_num [mergeThresholds, Option.getD])
    { lagMean := 10, lagP99 := 0, eluUtilization := 0, memory := none }
    { lagMean := 60, lagP99 := 0, eluUtilization := 0, memory := none }
    (by norm_num) rfl rfl rfl).1

/-- C6: Health score formula — no sample yields status `unknown` with
score 0; otherwise the score is
`round(clamp(100 - (lag + utilization + memory + p99-spike penalties), 0,
100), 1 decimal)` with the penalties as written in the spec; the status is
critical exactly when one of the three metric blocks fires critically (so
the p99-spike assessment never escalates to critical); and when no other
branch fires, the spike escalates to degraded exactly under
`p99 > lagWarning` and `p99 ≥ 2 * lagCritical`. -/
theorem C6_health_score_formula :
    (∀ t : Thresholds, getHealth t none = { status := .unknown, score := 0 }) ∧
    (∀ (t : Thresholds) (cur : HealthSample),
      (getHealth t (some cur)).score =
        jsRound1 (max 0 (min 100 (100 -
          (lagPenaltySpec t cur.lagMean +
           eluPenaltySpec t cur.eluUtilization +
           memPenaltySpec t cur.memory +
           spikePenaltySpec t cur.lagP99))))) ∧
    (∀ (t : Thresholds) (cur : HealthSample),
      ((getHealth t (some cur)).status = .critical ↔
        ((0 < cur.lagMean ∧ t.lagCritical ≤ cur.lagMean) ∨
         (0 < cur.eluUtilization ∧ t.eluCritical ≤ cur.eluUtilization) ∨
         (∃ p, cur.memory = some p ∧ t.memoryCritical ≤ p.1 / p.2)))) ∧
    (∀ (t : Thresholds) (cur : HealthSample),
      ¬(0 < cur.lagMean ∧ t.lagWarning ≤ cur.lagMean) →
      ¬(0 < cur.lagMean ∧ t.lagCritical ≤ cur.lagMean) →
      ¬(0 < cur.eluUtilization ∧ t.eluWarning ≤ cur.eluUtilization) →
      ¬(0 < cur.eluUtilization ∧ t.eluCritical ≤ cur.eluUtilization) →
      ¬(∃ p, cur.memory = some p ∧ t.memoryWarning ≤ p.1 / p.2) →
      ¬(∃ p, cur.memory = some p ∧ t.memoryCritical ≤ p.1 / p.2) →
      ((getHealth t (some cur)).status = .degraded ↔
        (t.lagWarning < cur.lagP99 ∧ t.lagCritical * 2 ≤ cur.lagP99))) := by
  refine ⟨fun t => rfl, fun t cur => ?_, fun t cur => getHealth_crit_iff t cur,
    fun t cur hw1 hc1 hw2 hc2 hw3 hc3 => ?_⟩
  · rw [getHealth_score, lagPenalty_eq_spec, eluPenalty_eq_spec,
      memPenalty_eq_spec, spikePenalty_eq_spec]
  · have e1 : (lagStep t cur.lagMean (100, HealthStatus.healthy)).2 =
        HealthStatus.healthy := lagStep_status_id t _ _ hw1 hc1
    have e2 : (eluStep t cur.eluUtilization
        (lagStep t cur.lagMean (100, HealthStatus.healthy))).2 =
        HealthStatus.healthy := by
      rw [eluStep_status_id t _ _ hw2 hc2, e1]
    have e3 : (memStep t cur.memory (eluStep t cur.eluUtilization
        (lagStep t cur.lagMean (100, HealthStatus.healthy)))).2 =
        HealthStatus.healthy := by
      rw [memStep_status_id t _ _ hw3 hc3, e2]
    exact spikeStep_from_healthy t _ _ e3

/-- Witness for C6 (the degraded-escalation clause at default thresholds
with `p99 = 250`, plus the score clause at a concrete sample). -/
theorem C6_health_score_formula_witness :
    ((getHealth (mergeThresholds {})
        (some { lagMean := 0, lagP99 := 250, eluUtilization := 0,
                memory := none })).status = .degraded ↔
      ((mergeThresholds {}).lagWarning < 250 ∧
        (mergeThresholds {}).lagCritical * 2 ≤ 250)) :=
  C6_health_score_formula.2.2.2 (mergeThresholds {})
    { lagMean := 0, lagP99 := 250, eluUtilization := 0, memory := none }
    (by norm_num) (by norm_num [mergeThresholds, Option.getD])
    (by norm_num) (by norm_num) (by simp) (by simp)

/-- Counterexample to C7 as stated: with both `count: 1` and
`duration: 4000` at now = 10000 over samples at t = 1, 9000, 10000, the
claim predicts only the most recent 1 sample within the window, but
`getHistory` returns both in-window samples (count is ignored). -/
theorem C7_counterexample :
    (getHistory (insertAll (mkCollector 10)
        [demoSample 1, demoSample 9000, demoSample 10000])
      { count := some 1, duration := some 4000, now := 10000 }).map
        RawSample.ts = [9000, 10000] := by
  rw [getHistory_duration_eval 10 (by norm_num)
    [demoSample 1, demoSample 9000, demoSample 10000] _
    (insertAll_ringSpec 10 (by norm_num)
      [demoSample 1, demoSample 9000, demoSample 10000] (by decide))
    (some 1) 4000 10000 (by norm_num)]
  norm_num [demoSample, RawSample.ts, List.filter]

/-- C7 (amended): honoring of every query option over any buffer state
reachable by valid inserts — (i) with a truthy `duration` the `count`
option is ignored and the query returns, in chronological order, exactly
the stored samples within the last `D` ms of now; (ii) `count` alone
returns the most recent `min n (stored)` samples; (iii) in any
combination, the result is the chronological suffix of `requestedCount`
samples filtered by the `startTime`/`endTime` absolute bounds, the
duration window, and the `filter` predicate; (iv) `sortOrder` desc
reverses the ascending result. -/
theorem C7_history_query (C : ℕ) (hC : 1 ≤ C) (l : List RawSample)
    (hv : ∀ s ∈ l, validateSample s = true) :
    (∀ (cnt : Option ℕ) (d now : ℚ), d ≠ 0 →
      getHistory (insertAll (mkCollector C) l)
          { count := cnt, duration := some d, now := now } =
        (l.drop (l.length - min l.length C)).filter
          (fun s => !decide (s.ts < now - d))) ∧
    (∀ n : ℕ, n ≠ 0 →
      getHistoryN (insertAll (mkCollector C) l) (some n) =
        l.drop (l.length - min n (min l.length C))) ∧
    (∀ q : HistoryQuery, q.sortOrder = .asc →
      getHistory (insertAll (mkCollector C) l) q =
        (l.drop (l.length - requestedCountOf q (min l.length C))).filter
          (fun s =>
            !(optTruthy q.startTime && decide (s.ts < q.startTime.getD 0)) &&
            !(optTruthy q.endTime && decide (q.endTime.getD 0 < s.ts)) &&
            !(optTruthy q.duration &&
              decide (s.ts < q.now - q.duration.getD 0)) &&
            (match q.filterP with
             | some f => f s
             | none => true))) ∧
    (∀ q : HistoryQuery,
      getHistory (insertAll (mkCollector C) l) { q with sortOrder := .desc } =
        (getHistory (insertAll (mkCollector C) l)
          { q with sortOrder := .asc }).reverse) := by
  have h0 : 0 < C := hC
  have spec := insertAll_ringSpec C h0 l hv
  refine ⟨fun cnt d now hd =>
      getHistory_duration_eval C h0 l _ spec cnt d now hd,
    fun n hn => getHistoryN_eval C h0 l _ spec n hn,
    fun q hso => ?_,
    fun q => getHistory_desc _ q⟩
  rw [getHistory_eval C h0 l _ spec q hso]
  have hk : historyKeep q = fun s =>
      if (!(optTruthy q.startTime && decide (s.ts < q.startTime.getD 0)) &&
          !(optTruthy q.endTime && decide (q.endTime.getD 0 < s.ts)) &&
          !(optTruthy q.duration &&
            decide (s.ts < q.now - q.duration.getD 0)) &&
          (match q.filterP with
           | some f => f s
           | none => true)) = true then some s else none :=
    funext (historyKeep_eq_filter q)
  rw [hk, filterMap_keep_eq_filter]

/-- Witness for C7 (amended), clause (i) at the counterexample's inputs. -/
theorem C7_history_query_witness :
    getHistory (insertAll (mkCollector 10)
        [demoSample 1, demoSample 9000, demoSample 10000])
        { count := some 1, duration := some 4000, now := 10000 } =
      (([demoSample 1, demoSample 9000, demoSample 10000]).drop
        (([demoSample 1, demoSample 9000, demoSample 10000]).length -
          min ([demoSample 1, demoSample 9000, demoSample 10000]).length
            10)).filter
        (fun s => !decide (s.ts < (10000 : ℚ) - 4000)) :=
  (C7_history_query 10 (by norm_num)
      [demoSample 1, demoSample 9000, demoSample 10000] (by decide)).1
    (some 1) 4000 10000 (by norm_num)

/-- C8: Export/import round trip — exporting the `n` samples held by a
collector (non-compressed) and importing the parsed payload into a fresh
collector of the same capacity yields `imported = n`, `failed = 0`, and a
buffer holding the identical samples in the same order. -/
theorem C8_round_trip (C : ℕ) (hC : 1 ≤ C) (l : List RawSample)
    (hv : ∀ s ∈ l, validateSample s = true) (hlen : l.length ≤ C) :
    (importJSON (mkCollector C)
        (.array ((exportJSON (insertAll (mkCollector C) l)
          (some l.length)).samples.map ImportSample.plain)) false).1 =
      some { imported := l.length, failed := 0 } ∧
    getHistoryAll (importJSON (mkCollector C)
        (.array ((exportJSON (insertAll (mkCollector C) l)
          (some l.length)).samples.map ImportSample.plain)) false).2 = l ∧
    (exportJSON (insertAll (mkCollector C) l) (some l.length)).sampleCount =
      l.length := by
  have h0 : 0 < C := hC
  have spec := insertAll_ringSpec C h0 l hv
  have hexp : (exportJSON (insertAll (mkCollector C) l)
      (some l.length)).samples = l := by
    show getHistoryN (insertAll (mkCollector C) l) (some l.length) = l
    rcases Nat.eq_zero_or_pos l.length with hz | hpos
    · have hsc : (insertAll (mkCollector C) l).sampleCount = 0 := by
        rw [spec.2.2.2.2.1, hz]; simp
      have hl : l = [] := List.length_eq_zero.mp hz
      rw [getHistoryN, getHistory_empty _ _ hsc, hl]
    · rw [getHistoryN_eval C h0 l _ spec l.length (by omega),
        min_eq_left hlen, min_self, Nat.sub_self, List.drop_zero]
  have hmk0 : (mkCollector C).historySize ≠ 0 := by
    show C ≠ 0; omega
  have hfold := importFold_valid l (mkCollector C) 0 0 hmk0 hv
  have himp : importJSON (mkCollector C)
      (.array ((exportJSON (insertAll (mkCollector C) l)
        (some l.length)).samples.map ImportSample.plain)) false =
      (some { imported := l.length, failed := 0 },
        insertAll (mkCollector C) l) := by
    rw [hexp]
    simp only [importJSON, reset_mkCollector, if_neg (by simp : ¬false = true)]
    rw [hfold]
    simp
  refine ⟨by rw [himp], ?_, ?_⟩
  · rw [himp]
    rw [getHistoryAll_eval C h0 l _ spec, min_eq_left hlen, Nat.sub_self,
      List.drop_zero]
  · show (getHistoryN (insertAll (mkCollector C) l) (some l.length)).length =
      l.length
    have hexp' : getHistoryN (insertAll (mkCollector C) l) (some l.length) =
        l := hexp
    rw [hexp']

/-- Witness for C8 with two valid samples and capacity 3. -/
theorem C8_round_trip_witness :
    (importJSON (mkCollector 3)
        (.array ((exportJSON (insertAll (mkCollector 3)
          [demoSample 1, demoSample 2])
          (some ([demoSample 1, demoSample 2]).length)).samples.map
            ImportSample.plain)) false).1 =
      some { imported := ([demoSample 1, demoSample 2]).length,
             failed := 0 } :=
  (C8_round_trip 3 (by norm_num) [demoSample 1, demoSample 2] (by decide)
    (by norm_num)).1

/-- Counterexample to C9 as stated: from a critical lag state, a sample
that maps to the warning level (a *downward* transition, not upward, and
not an unchanged level) still fires a warning alert even though the
cooldown (30000 ms at now = 1000, last firing at 0) has not elapsed. -/
theorem C9_counterexample :
    (checkStep 50 100 30000 initialAlertState 150 0).1 =
      { level := some .critical, lastTriggered := some 0, count := 1 } ∧
    levelOf 50 100 60 = some .warning ∧
    cooldownExpiredAt 30000
      { level := some .critical, lastTriggered := some 0, count := 1 } 1000 =
      false ∧
    (checkStep 50 100 30000
        { level := some .critical, lastTriggered := some 0, count := 1 }
        60 1000).2 = [AlertEvent.firing .warning] ∧
    ¬ claimFires (some .critical) (some .warning) false := by
  refine ⟨?_, by decide, ?_, ?_, ?_⟩
  · norm_num [checkStep, levelOf, cooldownExpiredAt, initialAlertState]
  · norm_num [cooldownExpiredAt]
  · norm_num [checkStep, levelOf, cooldownExpiredAt]
    try decide
  · intro h
    rcases h with h | ⟨h, _, _⟩
    · simp [levelRank] at h
    · exact absurd h (by decide)

/-- C9 (amended): a check step fires (emitting exactly one firing event
for the computed level) iff the computed level is non-null and either
*differs from* the previous level — in either direction — or the cooldown
has expired; a transition from a non-null level to null emits exactly one
resolved event, and a null-to-null step emits nothing. -/
theorem C9_alert_firing (warning critical cooldown : ℚ)
    (st : MetricAlertState) (value now : ℚ) :
    (∀ lv, levelOf warning critical value = some lv →
      (((checkStep warning critical cooldown st value now).2 =
          [AlertEvent.firing lv]) ↔
        (some lv ≠ st.level ∨ cooldownExpiredAt cooldown st now = true)) ∧
      (¬(some lv ≠ st.level ∨ cooldownExpiredAt cooldown st now = true) →
        (checkStep warning critical cooldown st value now).2 = [])) ∧
    (levelOf warning critical value = none →
      (∀ cl, st.level = some cl →
        (checkStep warning critical cooldown st value now).2 =
          [AlertEvent.resolved cl] ∧
        (checkStep warning critical cooldown st value now).1.level = none) ∧
      (st.level = none →
        (checkStep warning critical cooldown st value now).2 = [])) := by
  constructor
  · intro lv hlv
    by_cases hcond :
        some lv ≠ st.level ∨ cooldownExpiredAt cooldown st now = true
    · have hb : (some lv != st.level ||
          cooldownExpiredAt cooldown st now) = true := by
        rcases hcond with h | h <;> simp [h, bne_iff_ne]
      constructor
      · simp [checkStep, hlv, hb, hcond]
      · intro hno; exact absurd hcond hno
    · have hb : (some lv != st.level ||
          cooldownExpiredAt cooldown st now) = false := by
        push_neg at hcond
        simp [hcond.1, hcond.2, bne_iff_ne]
      constructor
      · simp [checkStep, hlv, hb, hcond]
      · intro _
        simp [checkStep, hlv, hb]
  · intro hnone
    constructor
    · intro cl hcl
      constructor <;> simp [checkStep, hnone, hcl]
    · intro hnl
      simp [checkStep, hnone, hnl]

/-- Witness for C9 (amended): from the fresh state, a critical reading
fires. -/
theorem C9_alert_firing_witness :
    ((checkStep 50 100 30000 initialAlertState 150 0).2 =
        [AlertEvent.firing .critical]) ↔
      (some AlertLevel.critical ≠ initialAlertState.level ∨
        cooldownExpiredAt 30000 initialAlertState 0 = true) :=
  ((C9_alert_firing 50 100 30000 initialAlertState 150 0).1 .critical
    (by decide)).1

/-- C10: `importJSON` without `append: true` resets the buffer before
adding, so prior samples are discarded even when every payload entry fails
validation (`imported = 0`, `failed = n`, empty history); a parse failure
or a non-array payload aborts before the reset, leaving the collector
unchanged. -/
theorem C10_import_reset (c : Collector) (entries : List ImportSample)
    (hval : c.enableValidation = true)
    (hbad : ∀ e ∈ entries, validateSample (expandSample e) = false) :
    (importJSON c (.array entries) false).1 =
      some { imported := 0, failed := entries.length } ∧
    (importJSON c (.array entries) false).2.sampleCount = 0 ∧
    getHistoryAll (importJSON c (.array entries) false).2 = [] ∧
    importJSON c .parseError false = (none, c) ∧
    importJSON c .notArray false = (none, c) := by
  have hval0 : (reset c false).enableValidation = true := hval
  have hres := importFold_invalid entries (reset c false) 0 0 hval0 hbad
  have hsc : (importJSON c (.array entries) false).2.sampleCount = 0 := by
    simp only [importJSON, if_neg (by simp : ¬false = true)]
    rw [hres.2.2.2]
    rfl
  refine ⟨?_, hsc, getHistory_empty _ _ hsc, rfl, rfl⟩
  simp only [importJSON, if_neg (by simp : ¬false = true)]
  rw [hres.1, hres.2.1]
  simp

/-- Witness for C10: a collector holding one sample, fed a payload whose
single entry fails validation, ends up with an empty buffer and
`imported = 0`. -/
theorem C10_import_reset_witness :
    (importJSON (insertAll (mkCollector 2) [demoSample 1])
        (.array [ImportSample.plain demoBadSample]) false).1 =
      some { imported := 0, failed := 1 } ∧
    (importJSON (insertAll (mkCollector 2) [demoSample 1])
        (.array [ImportSample.plain demoBadSample]) false).2.sampleCount =
      0 :=
  have h := C10_import_reset (insertAll (mkCollector 2) [demoSample 1])
    [ImportSample.plain demoBadSample] (by decide) (by decide)
  ⟨h.1, h.2.1⟩

end ELM
